import Mathlib

/-!
Verification development for the GeoNode MapStore client fragment
(`js/utils/ResourceUtils.js`, `js/epics/gnsave.js`,
`js/components/ResourcesCompactCatalog/ResourcesCompactCatalog.jsx`,
`js/plugins/DownloadResource.jsx`).

The JavaScript code is shallowly embedded: JSON objects become structures
whose optional keys are `Option` fields (`none` = key absent / `undefined`),
JS numbers become `ℚ` (coordinates, opacity) or `Int`/`Nat` (primary keys,
indices), and the impure pieces (the `uuid()` generator, the global
configuration read by `getConfigProp`) become explicit arguments: the uuid
supply is a `Nat` seed threaded through in state-passing style.
-/

/-- JS `s.includes(pat)` substring test (via `splitOn`: the pattern occurs
iff splitting on it yields more than one part). -/
def strContains (s pat : String) : Bool :=
  (s.splitOn pat).length != 1

/-- JS truthiness of an optional string: `undefined` and `''` are falsy. -/
def strTruthy : Option String → Bool
  | none => false
  | some s => s ≠ ""

/-- JS `a || ''` on an optional string. -/
def jsOrEmpty (a : Option String) : String :=
  match a with
  | some s => if s ≠ "" then s else ""
  | none => ""

/-- JS `a || b || ''` on optional strings (`||` keeps the first truthy value). -/
def jsOrStr (a b : Option String) : String :=
  match a with
  | some s => if s ≠ "" then s else jsOrEmpty b
  | none => jsOrEmpty b

/-- JS truthiness of an optional boolean (`undefined` is falsy). -/
def boolTruthy : Option Bool → Bool
  | none => false
  | some b => b

/-- JS truthiness of an optional number (`undefined` and `0` are falsy). -/
def intTruthy : Option Int → Bool
  | none => false
  | some n => n ≠ 0

/-- JS `x < c` where `x` may be `undefined` (any comparison with
`undefined` is false). -/
def jsLtOpt (x : Option ℚ) (c : ℚ) : Bool :=
  match x with
  | none => false
  | some v => v < c

/-- JS `x > c` where `x` may be `undefined`. -/
def jsGtOpt (x : Option ℚ) (c : ℚ) : Bool :=
  match x with
  | none => false
  | some v => c < v

/-- `index`-carrying `map`, embedding JS `array.map((x, index) => f(index, x))`
starting at offset `n`. -/
def mapIdxFrom (f : Nat → α → β) (n : Nat) : List α → List β
  | [] => []
  | a :: as => f n a :: mapIdxFrom f (n + 1) as

/-- State-passing `map`, used to thread the uuid seed through JS `array.map`
when the mapped function consumes fresh uuids. -/
def mapState (f : α → σ → β × σ) : List α → σ → List β × σ
  | [], s => ([], s)
  | a :: as, s =>
    let (b, s1) := f a s
    let (bs, s2) := mapState f as s1
    (b :: bs, s2)

/- ### Data model: backend resource JSON -/

/-- `resource.default_style` object. -/
structure DefaultStyleInfo where
  sld_title : Option String := none
  name : String := ""
  workspace : Option String := none
  deriving Repr, DecidableEq

/-- An entry of `resource.links`. -/
structure ResLink where
  url : Option String := none
  link_type : Option String := none
  mime : Option String := none
  extension : Option String := none
  deriving Repr, DecidableEq

/-- `resource.extent` (its `coords` array; JS destructuring tolerates any
length, missing positions are `undefined`). -/
structure ResExtent where
  coords : List ℚ := []
  deriving Repr, DecidableEq

/-- An entry of `resource.attribute_set` (the JS key `attribute` is a Lean
keyword, rendered `attributeName`). -/
structure ResAttribute where
  attributeName : String := ""
  attribute_label : Option String := none
  attribute_type : String := ""
  deriving Repr, DecidableEq

/-- An entry of `resource.download_urls`; `none` fields are absent keys,
so the all-`none` record is the empty JSON object (lodash `isEmpty`). -/
structure DownloadUrlEntry where
  url : Option String := none
  ajax_safe : Option Bool := none
  default : Option Bool := none
  deriving Repr, DecidableEq

/-- Bbox bounds; positions can be `undefined` when `extent.coords` has
fewer than four entries. -/
structure BboxBounds where
  minx : Option ℚ := none
  miny : Option ℚ := none
  maxx : Option ℚ := none
  maxy : Option ℚ := none
  deriving Repr, DecidableEq

/-- The bbox objects produced by `getExtentFromResource`. -/
structure Bbox where
  crs : String := ""
  bounds : BboxBounds := {}
  deriving Repr, DecidableEq

/-- A `dimensions` entry (`{ name: 'time', source: { type, url } }`). -/
structure DimensionSource where
  type : String := ""
  url : String := ""
  deriving Repr, DecidableEq

/-- A time dimension produced by `getDimensions`. -/
structure Dimension where
  name : String := ""
  source : DimensionSource := {}
  deriving Repr, DecidableEq

/-- A field produced by `datasetAttributeSetToFields` (the JS key `alias`
is a Lean keyword, rendered `aliasName`). -/
structure LayerField where
  name : String := ""
  aliasName : Option String := none
  type : String := ""
  deriving Repr, DecidableEq

/-- `search: { type: 'wfs', url }`. -/
structure SearchConfig where
  type : String := ""
  url : String := ""
  deriving Repr, DecidableEq

/-- `featureInfo: { format, template }`. -/
structure FeatureInfoConfig where
  format : String := ""
  template : String := ""
  deriving Repr, DecidableEq

/-- The stored layer settings (`resource.data`), spread last in the
default branch of `resourceToLayerConfig`, so that a present key
(`some`) overrides ANY key of the returned layer — `id`, `style`,
`title`, `bbox`, `bboxError`, all of them.  The only layer key not
modelled is `extendedParams`, whose value type would be mutually
recursive with `Resource`; a stored `extendedParams` is seed-independent
like every other stored key, so no claim depends on it. -/
structure StoredLayerSettings where
  id : Option String := none
  pk : Option Int := none
  type : Option String := none
  name : Option String := none
  title : Option String := none
  url : Option String := none
  format : Option String := none
  style : Option String := none
  group : Option String := none
  source : Option String := none
  provider : Option String := none
  visibility : Option Bool := none
  opacity : Option ℚ := none
  bbox : Option Bbox := none
  bboxError : Option Bool := none
  search : Option SearchConfig := none
  featureInfo : Option FeatureInfoConfig := none
  tileSize : Option Nat := none
  params : Option String := none
  dimensions : Option (List Dimension) := none
  fields : Option (List LayerField) := none
  serverType : Option String := none
  queryable : Option Bool := none
  perms : Option (List String) := none
  deriving Repr, DecidableEq

/-- The backend resource JSON (the fields read by the embedded functions). -/
structure Resource where
  pk : Option Int := none
  alternate : Option String := none
  links : List ResLink := []
  featureinfo_custom_template : Option String := none
  title : Option String := none
  abstract : Option String := none
  perms : Option (List String) := none
  default_style : Option DefaultStyleInfo := none
  ptype : Option String := none
  subtype : Option String := none
  sourcetype : Option String := none
  resource_type : Option String := none
  extent : Option ResExtent := none
  attribute_set : List ResAttribute := []
  has_time : Bool := false
  data : Option StoredLayerSettings := none
  href : Option String := none
  extension : Option String := none
  download_urls : List DownloadUrlEntry := []
  deriving Repr, DecidableEq

/- ### Constants from ResourceUtils.js -/

/-- `GXP_PTYPES.REST_MAP` (same value as `GXP_PTYPES.REST_IMG`). -/
def GXP_PTYPES_REST_MAP : String := "gxp_arcrestsource"

/-- `GXP_PTYPES.REST_IMG` (same value as `GXP_PTYPES.REST_MAP`). -/
def GXP_PTYPES_REST_IMG : String := "gxp_arcrestsource"

/-- `SOURCE_TYPES.LOCAL`. -/
def SOURCE_TYPES_LOCAL : String := "LOCAL"

/-- `SOURCE_TYPES.REMOTE`. -/
def SOURCE_TYPES_REMOTE : String := "REMOTE"

/-- `ResourceTypes.DOCUMENT`. -/
def ResourceTypes_DOCUMENT : String := "document"

/-- `FEATURE_INFO_FORMAT`. -/
def FEATURE_INFO_FORMAT : String := "TEMPLATE"

/- ### getExtentFromResource -/

/-- `getExtentFromResource({ extent })`: `null` when `extent?.coords` is
empty or the extent exceeds the WGS84 maximum extent, otherwise an
`EPSG:4326` bbox with the four destructured coordinates. -/
def getExtentFromResource (resource : Resource) : Option Bbox :=
  match resource.extent with
  | none => none
  | some extent =>
    if extent.coords.isEmpty then none
    else
      let minx := extent.coords[0]?
      let miny := extent.coords[1]?
      let maxx := extent.coords[2]?
      let maxy := extent.coords[3]?
      -- if the extent is greater than the max extent of the WGS84 return null
      if jsLtOpt minx (-180) || jsLtOpt miny (-90) || jsGtOpt maxx 180 || jsGtOpt maxy 90 then
        none
      else
        some { crs := "EPSG:4326", bounds := { minx, miny, maxx, maxy } }

/- ### External MapStore/GeoNode utilities (not part of this repository's
source files; modelled by simple total functions with the observable
behaviour the embedded code depends on) -/

/-- External `@js/utils/APIUtils.parseDevHostname`: rewrites the hostname
only on dev setups; modelled as the identity. -/
def parseDevHostname (u : String) : String := u

/-- External `@mapstore/.../ArcGISUtils.isImageServerUrl` applied to a
possibly-undefined url; modelled as an `ImageServer` substring test
(`undefined` is not an ImageServer url). -/
def isImageServerUrl (u : Option String) : Bool :=
  match u with
  | none => false
  | some s => strContains s "ImageServer"

/-- `url.parse(wmsUrl, true).query`: the query-string part of a url,
modelled as the text after the first `?`. -/
def urlQueryOf (u : String) : String :=
  String.intercalate "?" ((u.splitOn "?").drop 1)

/- ### getDimensions / datasetAttributeSetToFields -/

/-- `getDimensions({links, has_time})`. -/
def getDimensions (resource : Resource) : List Dimension :=
  let wmsUrl := (resource.links.find? (fun l => l.link_type == some "OGC:WMS")).bind ResLink.url
  let wmtsUrl := (resource.links.find? (fun l => l.link_type == some "OGC:WMTS")).bind ResLink.url
  if resource.has_time then
    [{ name := "time",
       source := { type := "multidim-extension",
                   url := match wmtsUrl with
                     | some u =>
                       if u ≠ "" then u
                       else ((jsOrEmpty wmsUrl).splitOn "/geoserver/").headD ""
                            ++ "/geoserver/gwc/service/wmts"
                     | none => ((jsOrEmpty wmsUrl).splitOn "/geoserver/").headD ""
                               ++ "/geoserver/gwc/service/wmts" } }]
  else []

/-- `datasetAttributeSetToFields({ attribute_set })`. -/
def datasetAttributeSetToFields (resource : Resource) : List LayerField :=
  (resource.attribute_set.filter
      (fun a => !(strContains a.attribute_type "gml:"))).map
    (fun a => { name := a.attributeName, aliasName := a.attribute_label, type := a.attribute_type })

/- ### Map-viewer layer model -/

/-- `defaultStyleParams.defaultStyle` (`{ title, name }`) computed from
`resource.default_style`. -/
structure DefaultStyleNamed where
  title : Option String := none
  name : String := ""
  deriving Repr, DecidableEq

/-- `extra_params` of a GeoNode map-layer entry. -/
structure ExtraParams where
  msId : Option String := none
  deriving Repr, DecidableEq

/-- A GeoNode `maplayers` entry.  The same JSON shape carries both the
entries built by `getGeoNodeMapLayers` (with `extra_params`) and the
backend entries holding a `dataset`, and the `{ dataset }` object set as
`extendedParams.mapLayer` by `resourceToLayerConfig`; absent keys are
`none`. -/
structure MapLayerEntry where
  pk : Option Int := none
  current_style : Option String := none
  extra_params : Option ExtraParams := none
  name : Option String := none
  order : Option Nat := none
  opacity : Option ℚ := none
  visibility : Option Bool := none
  dataset : Option Resource := none
  deriving Repr, DecidableEq

/-- The `extendedParams` object attached to layers. -/
structure ExtendedParams where
  pk : Option Int := none
  mapLayer : Option MapLayerEntry := none
  defaultStyle : Option DefaultStyleNamed := none
  deriving Repr, DecidableEq

/-- A MapStore layer object: the union of the keys produced by the three
branches of `resourceToLayerConfig` and the keys read from stored map
blobs; absent keys are `none`. -/
structure Layer where
  id : Option String := none
  pk : Option Int := none
  type : Option String := none
  name : Option String := none
  title : Option String := none
  url : Option String := none
  format : Option String := none
  style : Option String := none
  group : Option String := none
  source : Option String := none
  provider : Option String := none
  visibility : Option Bool := none
  opacity : Option ℚ := none
  bbox : Option Bbox := none
  bboxError : Option Bool := none
  search : Option SearchConfig := none
  featureInfo : Option FeatureInfoConfig := none
  tileSize : Option Nat := none
  params : Option String := none
  dimensions : Option (List Dimension) := none
  extendedParams : Option ExtendedParams := none
  fields : Option (List LayerField) := none
  serverType : Option String := none
  queryable : Option Bool := none
  perms : Option (List String) := none
  deriving Repr, DecidableEq

/-- The JS object spread `{...base, ...layerSettings}` performed last in
the default branch of `resourceToLayerConfig` (part_000 line 244): every
key present in the stored settings overrides the corresponding key of
the computed layer. -/
def applyStoredSettings (layerSettings : StoredLayerSettings) (base : Layer) : Layer :=
  { id := layerSettings.id <|> base.id,
    pk := layerSettings.pk <|> base.pk,
    type := layerSettings.type <|> base.type,
    name := layerSettings.name <|> base.name,
    title := layerSettings.title <|> base.title,
    url := layerSettings.url <|> base.url,
    format := layerSettings.format <|> base.format,
    style := layerSettings.style <|> base.style,
    group := layerSettings.group <|> base.group,
    source := layerSettings.source <|> base.source,
    provider := layerSettings.provider <|> base.provider,
    visibility := layerSettings.visibility <|> base.visibility,
    opacity := layerSettings.opacity <|> base.opacity,
    bbox := layerSettings.bbox <|> base.bbox,
    bboxError := layerSettings.bboxError <|> base.bboxError,
    search := layerSettings.search <|> base.search,
    featureInfo := layerSettings.featureInfo <|> base.featureInfo,
    tileSize := layerSettings.tileSize <|> base.tileSize,
    params := layerSettings.params <|> base.params,
    dimensions := layerSettings.dimensions <|> base.dimensions,
    extendedParams := base.extendedParams,
    fields := layerSettings.fields <|> base.fields,
    serverType := layerSettings.serverType <|> base.serverType,
    queryable := layerSettings.queryable <|> base.queryable,
    perms := layerSettings.perms <|> base.perms }

/-- The `geoNodeSettings` global configuration read via
`getConfigProp('geoNodeSettings')`, passed explicitly. -/
structure GeoNodeSettingsCfg where
  defaultLayerFormat : Option String := none
  defaultTileSize : Option Nat := none
  deriving Repr, DecidableEq

/-- The `uuid()` generator modelled as a seeded supply of fresh strings. -/
def uuidGen (seed : Nat) : String :=
  "uuid-" ++ toString seed

/-- `resourceToLayerConfig(resource)`: converts a GeoNode resource to a
MapStore layer.  The uuid supply is threaded as a seed (`uuid()` consumes
one seed per call) and the global `geoNodeSettings` configuration is an
explicit argument; the result pairs the layer with the advanced seed. -/
def resourceToLayerConfig (cfg : GeoNodeSettingsCfg) (resource : Resource) (seed : Nat) :
    Layer × Nat :=
  let bbox := getExtentFromResource resource
  let defaultStyleParams : Option DefaultStyleNamed :=
    match resource.default_style with
    | none => none
    | some ds =>
      some { title := ds.sld_title,
             name := match ds.workspace with
               | some w => if w ≠ "" then w ++ ":" ++ ds.name else ds.name
               | none => ds.name }
  let extendedParams : ExtendedParams :=
    { pk := resource.pk,
      mapLayer := some { dataset := some resource },
      defaultStyle := defaultStyleParams }
  if resource.subtype == some "3dtiles" then
    let tilesetUrl := (resource.links.find? (fun l => l.extension == some "3dtiles")).bind ResLink.url
    ({ id := some (uuidGen seed),
       type := some "3dtiles",
       title := resource.title,
       url := some (parseDevHostname (tilesetUrl.getD "")),
       bbox := bbox,
       visibility := some true,
       extendedParams := some extendedParams }, seed + 1)
  else if resource.ptype == some GXP_PTYPES_REST_MAP
       || resource.ptype == some GXP_PTYPES_REST_IMG then
    let arcgisUrl := (resource.links.find?
      (fun l => l.mime == some "text/html" && l.link_type == some "image")).bind ResLink.url
    ({ perms := resource.perms,
       id := some (uuidGen seed),
       pk := resource.pk,
       type := some "arcgis",
       queryable := if isImageServerUrl arcgisUrl then some false else none,
       name := if isImageServerUrl arcgisUrl then none
               else some (((resource.alternate).getD "").replace "remoteWorkspace:" ""),
       url := arcgisUrl,
       bbox := bbox,
       title := resource.title,
       visibility := some true,
       extendedParams := some extendedParams }, seed + 1)
  else
    let wfsUrl := (resource.links.find? (fun l => l.link_type == some "OGC:WFS")).bind ResLink.url
    let wmsUrl := (resource.links.find? (fun l => l.link_type == some "OGC:WMS")).bind ResLink.url
    let dimensions := getDimensions resource
    let params : Option String :=
      match wmsUrl with
      | some u => if u ≠ "" then some (urlQueryOf u) else none
      | none => none
    let defaultLayerFormat := (cfg.defaultLayerFormat).getD "image/png"
    let defaultTileSize := (cfg.defaultTileSize).getD 512
    let fields := datasetAttributeSetToFields resource
    let base : Layer :=
      { perms := resource.perms,
        id := some (uuidGen seed),
        pk := resource.pk,
        type := some "wms",
        name := resource.alternate,
        url := some (wmsUrl.getD ""),
        format := some defaultLayerFormat,
        search := match wfsUrl with
          | some u => if u ≠ "" then some { type := "wfs", url := u } else none
          | none => none,
        bbox := bbox,
        -- `...(bbox ? { bbox } : { bboxError: true })`
        bboxError := if bbox.isNone then some true else none,
        featureInfo := match resource.featureinfo_custom_template with
          | some t => if t ≠ "" then some { format := FEATURE_INFO_FORMAT, template := t }
                      else none
          | none => none,
        style := some (jsOrEmpty (defaultStyleParams.map DefaultStyleNamed.name)),
        title := resource.title,
        tileSize := some defaultTileSize,
        visibility := some true,
        params := params,
        dimensions := if dimensions.length > 0 then some dimensions else none,
        extendedParams := some extendedParams,
        -- `...(fields && { fields })`: `fields` is an array, always truthy
        fields := some fields,
        serverType := if resource.sourcetype == some SOURCE_TYPES_REMOTE
                         && !(strContains (wmsUrl.getD "") "/geoserver/")
                      then some "NO_VENDOR" else none }
    -- `...layerSettings`: every stored `resource.data` key overrides
    let final : Layer :=
      match resource.data with
      | none => base
      | some layerSettings => applyStoredSettings layerSettings base
    (final, seed + 1)

/- ### Map data blobs (resource.data for maps, base map configs) -/

/-- `data.map`: the layers array and the `sources` object (modelled as an
association list; only merged, never inspected, by the embedded code). -/
structure MapInner where
  layers : List Layer := []
  sources : List (String × String) := []
  deriving Repr, DecidableEq

/-- A stored map blob (`resource.data` of a map resource, or a base map
configuration). -/
structure MapData where
  map : Option MapInner := none
  deriving Repr, DecidableEq

/-- A map resource as consumed by `toMapStoreMapConfig`:
`const { maplayers = [], data } = resource || {}`. -/
structure MapResource where
  maplayers : List MapLayerEntry := []
  data : Option MapData := none
  deriving Repr, DecidableEq

/-- `data?.map?.layers || []`. -/
def jsLayers (d : Option MapData) : List Layer :=
  ((d.bind MapData.map).map MapInner.layers).getD []

/-- `data?.map?.sources` with `undefined` as the empty object. -/
def jsSources (d : Option MapData) : List (String × String) :=
  ((d.bind MapData.map).map MapInner.sources).getD []

/-- JS object spread `{...a, ...b}` on `sources`: keys of `b` override
keys of `a`. -/
def mergeSources (a b : List (String × String)) : List (String × String) :=
  a.filter (fun kv => !(b.any (fun kv2 => kv2.1 == kv.1))) ++ b

/-- The entry built by `getGeoNodeMapLayers` for the layer at position
`index` of the filtered (mapLayer-carrying) list.  The source spreads
`current_style` twice (once unconditionally, once under
`layer.type === 'wms'`) with the same value, so a single field suffices. -/
def geoNodeMapLayerEntry (index : Nat) (layer : Layer) : MapLayerEntry :=
  { pk := match layer.extendedParams.bind ExtendedParams.mapLayer with
      | some mapLayer => mapLayer.pk
      | none => none,
    current_style := some (jsOrEmpty layer.style),
    extra_params := some { msId := layer.id },
    name := some (jsOrEmpty layer.name),
    order := some index,
    opacity := some (layer.opacity.getD 1),
    visibility := layer.visibility }

/-- The filter of `getGeoNodeMapLayers`: the layers of
`data?.map?.layers` that carry `extendedParams.mapLayer`. -/
def mapLayerCarrying (data : Option MapData) : List Layer :=
  (jsLayers data).filter
    (fun layer => (layer.extendedParams.bind ExtendedParams.mapLayer).isSome)

/-- `getGeoNodeMapLayers(data)`: the mapLayer-carrying layers mapped with
their (post-filter) index to GeoNode map-layer entries. -/
def getGeoNodeMapLayers (data : Option MapData) : List MapLayerEntry :=
  mapIdxFrom geoNodeMapLayerEntry 0 (mapLayerCarrying data)

/-- `toGeoNodeMapConfig(data)`: `{}` (no `maplayers` key, i.e. `none`) for
falsy `data`, otherwise `{ maplayers }`. -/
def toGeoNodeMapConfig (data : Option MapData) : Option (List MapLayerEntry) :=
  match data with
  | none => none
  | some d => some (getGeoNodeMapLayers (some d))

/-- `compareBackgroundLayers(aLayer, bLayer)` (JS `===` on possibly
`undefined` keys is `Option` equality). -/
def compareBackgroundLayers (aLayer bLayer : Layer) : Bool :=
  aLayer.type == bLayer.type
    && aLayer.name == bLayer.name
    && aLayer.source == bLayer.source
    && aLayer.provider == bLayer.provider
    && aLayer.url == bLayer.url

/-- The `find` predicate used by `toMapStoreMapConfig` to look a layer's
entry up in `maplayers`:
`layer.id !== undefined && mLayer?.extra_params?.msId === layer.id`. -/
def mapLayerMatchesId (layer : Layer) (mLayer : MapLayerEntry) : Bool :=
  layer.id.isSome && ((mLayer.extra_params.bind ExtraParams.msId) == layer.id)

/-- The body of the reconciliation `.map` in `toMapStoreMapConfig`:
re-attach the matching `maplayers` entry (overriding a wms layer's style
with `mapLayer.current_style || layer.style || ''`), drop (`null`) layers
whose entry disappeared, keep the rest. -/
def attachMapLayer (maplayers : List MapLayerEntry) (layer : Layer) : Option Layer :=
  match maplayers.find? (fun mLayer => mapLayerMatchesId layer mLayer) with
  | some mapLayer =>
    some { layer with
           style := if layer.type == some "wms"
                    then some (jsOrStr mapLayer.current_style layer.style)
                    else layer.style,
           extendedParams := some { (layer.extendedParams.getD {}) with mapLayer := some mapLayer } }
  | none =>
    if (layer.extendedParams.bind ExtendedParams.mapLayer).isSome then none
    else some layer

/-- The `backgroundLayers` computed by `toMapStoreMapConfig` from the base
config and the stored map blob. -/
def msBackgroundLayers (data baseConfig : Option MapData) : List Layer :=
  let baseMapBackgroundLayers := (jsLayers baseConfig).filter (fun l => l.group == some "background")
  let currentBackgroundLayer :=
    ((jsLayers data).filter (fun l => l.group == some "background")).find?
      (fun layer => boolTruthy layer.visibility
        && (baseMapBackgroundLayers.find? (fun bLayer => compareBackgroundLayers layer bLayer)).isSome)
  match currentBackgroundLayer with
  | none => baseMapBackgroundLayers
  | some current =>
    baseMapBackgroundLayers.map (fun layer =>
      { layer with visibility := some (compareBackgroundLayers layer current) })

/-- The reconciled non-background `layers` of `toMapStoreMapConfig`. -/
def msReconciledLayers (maplayers : List MapLayerEntry) (data : Option MapData) : List Layer :=
  ((jsLayers data).filter (fun layer => !(layer.group == some "background"))).filterMap
    (attachMapLayer maplayers)

/-- The `addMapLayers` of `toMapStoreMapConfig`: map layers carrying a
`dataset` and not present in the blob, converted with
`resourceToLayerConfig` (threading the uuid seed). -/
def msAddMapLayers (cfg : GeoNodeSettingsCfg) (maplayers : List MapLayerEntry)
    (layers : List Layer) (seed : Nat) : List Layer × Nat :=
  mapState (resourceToLayerConfig cfg)
    (((maplayers.filter (fun mLayer => mLayer.dataset.isSome)).filter
        (fun mLayer => !(layers.any (fun layer => mapLayerMatchesId layer mLayer)))).filterMap
      MapLayerEntry.dataset)
    seed

/-- `toMapStoreMapConfig(resource, baseConfig)` (with the uuid seed and
`geoNodeSettings` threaded for the nested `resourceToLayerConfig` calls). -/
def toMapStoreMapConfig (cfg : GeoNodeSettingsCfg) (resource : Option MapResource)
    (baseConfig : Option MapData) (seed : Nat) : MapData × Nat :=
  let maplayers := (resource.map MapResource.maplayers).getD []
  let data := resource.bind MapResource.data
  let backgroundLayers := msBackgroundLayers data baseConfig
  let layers := msReconciledLayers maplayers data
  ({ map := some
      { layers := backgroundLayers ++ layers ++ (msAddMapLayers cfg maplayers layers seed).1,
        sources := mergeSources (jsSources data) (jsSources baseConfig) } },
   (msAddMapLayers cfg maplayers layers seed).2)

/- ### Download helpers (ResourceUtils.js) and DownloadResource.jsx -/

/-- `isDocumentExternalSource(resource)`. -/
def isDocumentExternalSource (resource : Option Resource) : Bool :=
  match resource with
  | none => false
  | some r => r.resource_type == some ResourceTypes_DOCUMENT
      && r.sourcetype == some SOURCE_TYPES_REMOTE

/-- The `{ url, ajaxSafe }` object returned by `getDownloadUrlInfo`. -/
structure DownloadInfo where
  url : Option String := none
  ajaxSafe : Option Bool := none
  deriving Repr, DecidableEq

/-- lodash `isEmpty` on a `download_urls` entry: no own keys. -/
def downloadEntryIsEmpty (d : DownloadUrlEntry) : Bool :=
  d.url.isNone && d.ajax_safe.isNone && d.default.isNone

/-- `getDownloadUrlInfo(resource)`. -/
def getDownloadUrlInfo (resource : Option Resource) : DownloadInfo :=
  let hrefUrl : DownloadInfo := { url := resource.bind Resource.href, ajaxSafe := some false }
  if isDocumentExternalSource resource then hrefUrl
  else
    let downloadUrls := (resource.map Resource.download_urls).getD []
    if !downloadUrls.isEmpty then
      let downloadData : Option DownloadUrlEntry :=
        if downloadUrls.length == 1 then downloadUrls[0]?
        else downloadUrls.find? (fun d => boolTruthy d.default)
      match downloadData with
      | some d =>
        if !(downloadEntryIsEmpty d) then { url := d.url, ajaxSafe := d.ajax_safe }
        else hrefUrl
      | none => hrefUrl
    else hrefUrl

/-- The props of `DownloadButton` used by its branching logic. -/
structure DownloadButtonArgs where
  resource : Option Resource := none
  resourceData : Option Resource := none
  renderType : String := "button"
  allowedSources : List String := [SOURCE_TYPES_LOCAL, SOURCE_TYPES_REMOTE]
  downloading : Bool := false
  deriving Repr, DecidableEq

/-- What `DownloadButton` renders when it does not return `null`: a plain
download anchor (`download href=...`) or the action button wired to
`onAction`. -/
inductive RenderedDownload where
  | anchor (url : String) (external : Bool)
  | actionButton (disabled : Bool)
  deriving Repr, DecidableEq

/-- `DownloadButton` (DownloadResource.jsx): `none` models returning
`null`. -/
def DownloadButton (args : DownloadButtonArgs) : Option RenderedDownload :=
  let isButton := args.renderType ≠ "menuItem"
  let res := match args.resource with
    | some r => some r
    | none => args.resourceData
  let downloadInfo := getDownloadUrlInfo res
  let isExternal := isDocumentExternalSource res
  let isNotAjaxSafe := !(boolTruthy downloadInfo.ajaxSafe)
  let perms := (res.bind Resource.perms).getD []
  let downloadUrls := (res.map Resource.download_urls).getD []
  let ptypeExcluded := match res.bind Resource.ptype with
    | some p => p == GXP_PTYPES_REST_MAP || p == GXP_PTYPES_REST_IMG
    | none => false
  let sourceAllowed := match res.bind Resource.sourcetype with
    | some st => args.allowedSources.contains st
    | none => false
  if (downloadUrls.isEmpty && !(perms.contains "download_resourcebase"))
      || !(perms.contains "download_resourcebase")
      || (!isButton && isNotAjaxSafe)
      || ptypeExcluded
      || !sourceAllowed then
    none
  else if isNotAjaxSafe then
    match downloadInfo.url with
    | some u => if u ≠ "" then some (RenderedDownload.anchor u isExternal) else none
    | none => none
  else
    some (RenderedDownload.actionButton args.downloading)

/- ### Upload response normalization (ResourceUtils.js) -/

/-- An upload entry; `status` stands for the untouched payload keys
preserved by the object spreads. -/
structure Upload where
  id : Option String := none
  exec_id : Option String := none
  created : Option String := none
  create_date : Option String := none
  status : Option String := none
  deriving Repr, DecidableEq

/-- The duplicate test of `processUploadResponse` (JS `&&` truthiness on
the ids, `===` on possibly-undefined values). -/
def uploadMatches (upload currentResponse : Upload) : Bool :=
  if strTruthy upload.id && strTruthy currentResponse.id then
    upload.id == currentResponse.id
  else if strTruthy upload.id && strTruthy currentResponse.exec_id then
    upload.id == currentResponse.exec_id
  else if strTruthy upload.exec_id && strTruthy currentResponse.id then
    upload.exec_id == currentResponse.id
  else
    upload.exec_id == currentResponse.exec_id

/-- `{...currentResponse, ...(!currentResponse.id && {create_date:
currentResponse.created, id: currentResponse.exec_id})}`. -/
def normalizeUpload (currentResponse : Upload) : Upload :=
  if strTruthy currentResponse.id then currentResponse
  else { currentResponse with create_date := currentResponse.created,
                              id := currentResponse.exec_id }

/-- One step of the `reduce` in `processUploadResponse`: drop the
accumulated entries matching the current response (the inline `!==`
filter is the negation of the duplicate test) and prepend the normalized
current response. -/
def uploadStep (acc : List Upload) (currentResponse : Upload) : List Upload :=
  match acc.find? (fun upload => uploadMatches upload currentResponse) with
  | some _ =>
    normalizeUpload currentResponse
      :: acc.filter (fun upload => !(uploadMatches upload currentResponse))
  | none => normalizeUpload currentResponse :: acc

/-- The `reduce` of `processUploadResponse` over the raw response list. -/
def processUploadList (response : List Upload) : List Upload :=
  response.foldl uploadStep []

/-- lodash `uniqBy(list, 'id')`: keep the first occurrence of each `id`
value (missing ids all share the value `undefined`). -/
def uniqByIdAux (seen : List (Option String)) : List Upload → List Upload
  | [] => []
  | u :: us =>
    if seen.contains u.id then uniqByIdAux seen us
    else u :: uniqByIdAux (u.id :: seen) us

/-- lodash `orderBy(_, 'create_date', 'desc')` key comparison: in the
descending order `undefined` sorts first, strings by their order. -/
def createDateDescLe (a b : Upload) : Bool :=
  match a.create_date, b.create_date with
  | none, _ => true
  | some _, none => false
  | some x, some y => y ≤ x

/-- `parseUploadResponse(upload)`:
`orderBy(uniqBy([...upload], 'id'), 'create_date', 'desc')`. -/
def parseUploadResponse (upload : List Upload) : List Upload :=
  (uniqByIdAux [] upload).mergeSort createDateDescLe

/-- `processUploadResponse(response)`. -/
def processUploadResponse (response : List Upload) : List Upload :=
  parseUploadResponse (processUploadList response)

/- ### ResourcesCompactCatalog.jsx as a state machine -/

/-- A catalog entry (only `pk` and the thumbnail matter to the widget). -/
structure CatalogEntry where
  pk : Int := 0
  thumbnail_url : Option String := none
  deriving Repr, DecidableEq

/-- A backend response: `responseToEntries` defaults to `res.resources`. -/
structure CatalogResponse where
  resources : List CatalogEntry := []
  isNextPageAvailable : Bool := false
  deriving Repr, DecidableEq

/-- The hook state of `ResourcesCompactCatalog`; `pendingPage` records the
`options.page` captured by the in-flight request's `.then` closure
(`none` when no request is loading). -/
structure CatalogState where
  entries : List CatalogEntry := []
  loading : Bool := false
  page : Nat := 1
  isNextPageAvailable : Bool := false
  q : String := ""
  pendingPage : Option Nat := none
  deriving Repr, DecidableEq

/-- The request issued to the backend (`{...params, q, page, pageSize}`). -/
structure CatalogRequest where
  q : String := ""
  page : Nat := 1
  pageSize : Nat := 10
  deriving Repr, DecidableEq

/-- `updateRequest.current(options)`: issue a request only when no request
is currently loading; on issue, mark loading and remember the requested
page. -/
def updateRequest (s : CatalogState) (optionsPage : Nat) (pageSize : Nat) :
    CatalogState × Option CatalogRequest :=
  if !s.loading then
    ({ s with loading := true, pendingPage := some optionsPage },
     some { q := s.q, page := optionsPage, pageSize := pageSize })
  else (s, none)

/-- The effect of a change of `q`: `setPage(1)` and
`updateRequest.current({ page: 1, reset: true })`. -/
def onQueryChange (s : CatalogState) (newQ : String) (pageSize : Nat) :
    CatalogState × Option CatalogRequest :=
  updateRequest { s with q := newQ, page := 1 } 1 pageSize

/-- The infinite-scroll trigger: guarded by
`shouldScroll: () => !loading && isNextPageAvailable`, it runs
`setPage(page + 1)`, whose `[page]` effect calls
`updateRequest.current({ page })` when `page > 1`. -/
def onScrollLoad (s : CatalogState) (pageSize : Nat) :
    CatalogState × Option CatalogRequest :=
  if !s.loading && s.isNextPageAvailable then
    let s1 := { s with page := s.page + 1 }
    if s1.page > 1 then updateRequest s1 s1.page pageSize else (s1, none)
  else (s, none)

/-- Arrival of the in-flight request's response:
`setEntries(options.page === 1 ? newEntries : [...entries, ...newEntries])`,
update `isNextPageAvailable`, clear `loading`. -/
def onResponse (s : CatalogState) (response : CatalogResponse) : CatalogState :=
  match s.pendingPage with
  | none => s
  | some p =>
    { s with
      entries := if p == 1 then response.resources else s.entries ++ response.resources,
      isNextPageAvailable := response.isNextPageAvailable,
      loading := false,
      pendingPage := none }

/- ### gnsave.js epics -/

/-- A geo-limits entry from `getPermissionsPayload(state).geoLimits`. -/
structure GeoLimit where
  id : Int := 0
  type : String := ""
  features : List String := []
  deriving Repr, DecidableEq

/-- The HTTP calls orchestrated around `gnSaveDirectContent`. -/
inductive HttpCall where
  | getResourceByPk (pk : Option Int)
  | deleteGeoLimits (pk : Option Int) (id : Int) (type : String)
  | updateGeoLimits (pk : Option Int) (id : Int) (type : String) (features : List String)
  | saveResourceData
  deriving Repr, DecidableEq

/-- The issue schedule of `gnSaveDirectContent`: phase 0 is the
`axios.all([...])` batch (the resource fetch and one geo-limits update or
delete per entry, all started together), phase 1 is the resource-data
save triggered by the emitted `saveContent` action; a phase starts only
after the previous phase has fully completed. -/
def gnSaveDirectContentPhases (resourceId : Option Int) (geoLimits : Option (List GeoLimit)) :
    List (List HttpCall) :=
  [HttpCall.getResourceByPk resourceId
     :: (geoLimits.getD []).map (fun limits =>
          if limits.features.length == 0 then
            HttpCall.deleteGeoLimits resourceId limits.id limits.type
          else
            HttpCall.updateGeoLimits resourceId limits.id limits.type limits.features),
   [HttpCall.saveResourceData]]

/-- A schedule is sequential when every phase issues at most one call. -/
def sequentialSchedule (phases : List (List HttpCall)) : Prop :=
  ∀ p ∈ phases, p.length ≤ 1

/-- Outcome of one geo-limits call after its inline `.catch`: the `error`
key of the resolved value is truthy exactly for a rejected call, which
resolves to the `{ error: true, resourceId, limits }` marker. -/
structure GeoLimitOutcome where
  error : Bool := false
  resourceId : Option Int := none
  limits : Option GeoLimit := none
  deriving Repr, DecidableEq

/-- The resolved values of the geo-limits calls inside `axios.all`, given
which calls succeeded (`true`) or were rejected and caught. -/
def geoLimitsResponses (resourceId : Option Int) (geoLimits : List GeoLimit)
    (succeeded : List Bool) : List GeoLimitOutcome :=
  List.zipWith
    (fun limits ok =>
      if ok then { error := false }
      else { error := true, resourceId := resourceId, limits := some limits })
    geoLimits succeeded

/-- The `showNotifications` argument of `saveContent`: the boolean flag or
a `{ title, message }` notification object. -/
inductive ShowNotif where
  | flag (b : Bool)
  | notif (title message : String)
  deriving Repr, DecidableEq

/-- The metadata carried by the emitted `saveContent`. -/
structure SaveMetadata where
  name : Option String := none
  description : Option String := none
  extension : Option String := none
  href : Option String := none
  deriving Repr, DecidableEq

/-- The redux actions emitted by the modelled epics. -/
inductive GnAction where
  | savingResource
  | saveContent (resourceId : Option Int) (metadata : SaveMetadata)
      (reload : Bool) (showNotifications : ShowNotif)
  | resetGeoLimits
  | saveError (message : String)
  | errorNotification (title message : String)
  deriving Repr, DecidableEq

/-- The action stream emitted by `gnSaveDirectContent` for one
`SAVE_DIRECT_CONTENT` action, given the state bits it reads
(`resourceId`, `geoLimits`, the pending name/description) and the network
outcomes: the result of `getResourceByPk` and the success of each
geo-limits call (rejected calls are caught inline, so only a fetch
failure rejects the whole `axios.all`). -/
def gnSaveDirectContent (resourceId : Option Int) (geoLimits : Option (List GeoLimit))
    (stateName stateDescription : Option String)
    (fetchResult : Except String Resource) (succeeded : List Bool) : List GnAction :=
  match fetchResult with
  | Except.error e =>
    [GnAction.savingResource,
     GnAction.saveError e,
     GnAction.errorNotification "map.mapError.errorTitle"
       (if e ≠ "" then e else "map.mapError.errorDefault")]
  | Except.ok resource =>
    let outcomes := geoLimitsResponses resourceId (geoLimits.getD []) succeeded
    let geoLimitsErrors := outcomes.filter (fun o => o.error)
    let metadata : SaveMetadata :=
      { name := if strTruthy stateName then stateName else resource.title,
        description := if strTruthy stateDescription then stateDescription else resource.abstract,
        extension := resource.extension,
        href := resource.href }
    [GnAction.savingResource,
     GnAction.saveContent resourceId metadata false
       (if geoLimitsErrors.length > 0 then
          ShowNotif.notif "gnviewer.warningGeoLimitsSaveTitle"
            "gnviewer.warningGeoLimitsSaveMessage"
        else ShowNotif.flag true),
     GnAction.resetGeoLimits]

/- ### SaveAPI (gnsave.js) -/

/-- The body handed to `SaveAPI` (the keys the map/document branches
read or extend). -/
structure SaveBody where
  title : Option String := none
  data : Option MapData := none
  maplayers : Option (List MapLayerEntry) := none
  id : Option Int := none
  deriving Repr, DecidableEq

/-- The backend API call performed by a `SaveAPI` branch; `noCall` models
the document branch returning `false` without an id. -/
inductive ApiCall where
  | updateMap (id : Int) (body : SaveBody)
  | createMap (body : SaveBody)
  | updateDocument (id : Int) (body : SaveBody)
  | noCall
  deriving Repr, DecidableEq

/-- `parseMapBody(body)`: `{...body, ...toGeoNodeMapConfig(body.data)}`
(the spread only overrides `maplayers` when `toGeoNodeMapConfig` produced
the key). -/
def parseMapBody (body : SaveBody) : SaveBody :=
  match toGeoNodeMapConfig body.data with
  | none => body
  | some maplayers => { body with maplayers := some maplayers }

/-- `SaveAPI[ResourceTypes.MAP]`:
`id ? updateMap(id, {...parseMapBody(body), id}) : createMap(parseMapBody(body))`. -/
def saveApiMap (id : Option Int) (body : SaveBody) : ApiCall :=
  match id with
  | some n =>
    if n ≠ 0 then ApiCall.updateMap n { parseMapBody body with id := some n }
    else ApiCall.createMap (parseMapBody body)
  | none => ApiCall.createMap (parseMapBody body)

/-- `SaveAPI[ResourceTypes.DOCUMENT]`:
`id ? updateDocument(id, body) : false`. -/
def saveApiDocument (id : Option Int) (body : SaveBody) : ApiCall :=
  match id with
  | some n => if n ≠ 0 then ApiCall.updateDocument n body else ApiCall.noCall
  | none => ApiCall.noCall

/-- A layer with its (uuid-generated) `id` erased, used to state that
`resourceToLayerConfig` is deterministic in everything but the fresh id. -/
def Layer.eraseId (l : Layer) : Layer :=
  { l with id := none }

/- ### General list lemmas -/

theorem mapIdxFrom_length (f : Nat → α → β) (n : Nat) (xs : List α) :
    (mapIdxFrom f n xs).length = xs.length := by
  induction xs generalizing n with
  | nil => rfl
  | cons a as ih => simp [mapIdxFrom, ih]

theorem mapIdxFrom_get (f : Nat → α → β) (n : Nat) (xs : List α) (k : Nat) (hk : k < xs.length) :
    (mapIdxFrom f n xs).get ⟨k, by rw [mapIdxFrom_length]; exact hk⟩
      = f (n + k) (xs.get ⟨k, hk⟩) := by
  induction xs generalizing n k with
  | nil => exact absurd hk (by simp)
  | cons a as ih =>
    cases k with
    | zero => simp [mapIdxFrom]
    | succ j =>
      have hj : j < as.length := Nat.lt_of_succ_lt_succ hk
      have := ih (n + 1) j hj
      simpa [mapIdxFrom, Nat.add_assoc, Nat.add_comm 1 j] using this

theorem find?_eq_get (p : α → Bool) (xs : List α) (k : Nat) (hk : k < xs.length)
    (hpk : p (xs.get ⟨k, hk⟩) = true)
    (hprev : ∀ j (hj : j < k), p (xs.get ⟨j, Nat.lt_trans hj hk⟩) = false) :
    xs.find? p = some (xs.get ⟨k, hk⟩) := by
  induction xs generalizing k with
  | nil => exact absurd hk (by simp)
  | cons a as ih =>
    cases k with
    | zero =>
      have hpa : p a = true := hpk
      simp [List.find?_cons_of_pos _ hpa]
    | succ j =>
      have h0 : p a = false := hprev 0 (Nat.succ_pos j)
      have hj : j < as.length := Nat.lt_of_succ_lt_succ hk
      have htail := ih j hj hpk (fun i hi => hprev (i + 1) (Nat.succ_lt_succ hi))
      rw [List.find?_cons_of_neg _ (by simp [h0])]
      exact htail

/- ### Claim C3: request scheduling of gnSaveDirectContent -/

/-- Claim C3, counterexample: with a single geo-limits entry the epic's
schedule is not sequential — the resource fetch and the geo-limits update
are both issued in the opening `axios.all` batch. -/
theorem gnSaveDirectContent_not_sequential :
    ¬ sequentialSchedule
        (gnSaveDirectContentPhases (some 1) (some [{ id := 1, type := "user", features := ["f"] }])) := by
  intro h
  have h1 := h [HttpCall.getResourceByPk (some 1), HttpCall.updateGeoLimits (some 1) 1 "user" ["f"]]
    (by decide)
  exact absurd h1 (by decide)

/-- Claim C3 (amended): in `gnSaveDirectContent` the resource fetch and
all geo-limits updates/deletes are issued concurrently in a single
`axios.all` batch, and only the subsequent resource-data save is
sequenced after the whole batch completes; the schedule is sequential
exactly when there are no geo-limits entries. -/
theorem gnSaveDirectContent_schedule (rid : Option Int) (gls : Option (List GeoLimit)) :
    ∃ batch : List HttpCall,
      gnSaveDirectContentPhases rid gls = [batch, [HttpCall.saveResourceData]]
      ∧ batch.head? = some (HttpCall.getResourceByPk rid)
      ∧ batch.length = 1 + (gls.getD []).length
      ∧ (∀ limits ∈ gls.getD [],
          (if limits.features.length == 0 then
             HttpCall.deleteGeoLimits rid limits.id limits.type
           else HttpCall.updateGeoLimits rid limits.id limits.type limits.features) ∈ batch)
      ∧ (sequentialSchedule (gnSaveDirectContentPhases rid gls) ↔ gls.getD [] = []) := by
  refine ⟨_, rfl, rfl, by simp [Nat.add_comm], ?_, ?_⟩
  · intro limits h
    exact List.mem_cons_of_mem _ (List.mem_map_of_mem _ h)
  · constructor
    · intro h
      have h1 := h (HttpCall.getResourceByPk rid
        :: (gls.getD []).map (fun limits =>
             if limits.features.length == 0 then
               HttpCall.deleteGeoLimits rid limits.id limits.type
             else HttpCall.updateGeoLimits rid limits.id limits.type limits.features))
        (by simp [gnSaveDirectContentPhases])
      simpa using h1
    · intro h
      intro p hp
      simp [gnSaveDirectContentPhases, h] at hp
      rcases hp with h1 | h1 <;> simp [h1]

/-- Witness for `gnSaveDirectContent_schedule` at a concrete state. -/
theorem gnSaveDirectContent_schedule_witness :
    ∃ batch : List HttpCall,
      gnSaveDirectContentPhases (some 9) (some [{ id := 3, type := "user", features := ["f1"] }])
        = [batch, [HttpCall.saveResourceData]]
      ∧ HttpCall.updateGeoLimits (some 9) 3 "user" ["f1"] ∈ batch := by
  obtain ⟨batch, h1, _, _, h4, _⟩ :=
    gnSaveDirectContent_schedule (some 9) (some [{ id := 3, type := "user", features := ["f1"] }])
  refine ⟨batch, h1, ?_⟩
  have h5 := h4 { id := 3, type := "user", features := ["f1"] } (by simp)
  simpa using h5

/- ### Claim C4: geo-limits failures are compensated, not fatal -/

/-- Claim C4: every rejected geo-limits call is caught and resolves to the
`{ error: true, resourceId, limits }` marker; when the resource fetch
succeeds the epic always emits `saveContent` for the resource, carrying
the `gnviewer.warningGeoLimitsSaveTitle` warning notification instead of
the plain success flag exactly when at least one geo-limits call was
rejected. -/
theorem gnSaveDirectContent_compensation (rid : Option Int) (gls : Option (List GeoLimit))
    (stateName stateDescription : Option String) (resource : Resource)
    (succeeded : List Bool) :
    (∀ k (hk1 : k < (gls.getD []).length) (hk2 : k < succeeded.length),
      succeeded.get ⟨k, hk2⟩ = false →
        ∃ hk3 : k < (geoLimitsResponses rid (gls.getD []) succeeded).length,
          (geoLimitsResponses rid (gls.getD []) succeeded).get ⟨k, hk3⟩ =
            { error := true, resourceId := rid, limits := some ((gls.getD []).get ⟨k, hk1⟩) })
    ∧ ∃ showNotifications : ShowNotif,
        gnSaveDirectContent rid gls stateName stateDescription (Except.ok resource) succeeded =
          [GnAction.savingResource,
           GnAction.saveContent rid
             { name := if strTruthy stateName then stateName else resource.title,
               description := if strTruthy stateDescription then stateDescription
                              else resource.abstract,
               extension := resource.extension,
               href := resource.href } false showNotifications,
           GnAction.resetGeoLimits]
        ∧ (showNotifications =
             ShowNotif.notif "gnviewer.warningGeoLimitsSaveTitle"
               "gnviewer.warningGeoLimitsSaveMessage"
           ↔ ∃ k, ∃ hk1 : k < (gls.getD []).length, ∃ hk2 : k < succeeded.length,
               succeeded.get ⟨k, hk2⟩ = false)
        ∧ ((¬ ∃ k, ∃ hk1 : k < (gls.getD []).length, ∃ hk2 : k < succeeded.length,
               succeeded.get ⟨k, hk2⟩ = false) →
             showNotifications = ShowNotif.flag true) := by
  have hlen : (geoLimitsResponses rid (gls.getD []) succeeded).length
      = min (gls.getD []).length succeeded.length := by
    simp [geoLimitsResponses]
  have hmarker : ∀ k (hk1 : k < (gls.getD []).length) (hk2 : k < succeeded.length),
      succeeded.get ⟨k, hk2⟩ = false →
        ∃ hk3 : k < (geoLimitsResponses rid (gls.getD []) succeeded).length,
          (geoLimitsResponses rid (gls.getD []) succeeded).get ⟨k, hk3⟩ =
            { error := true, resourceId := rid, limits := some ((gls.getD []).get ⟨k, hk1⟩) } := by
    intro k hk1 hk2 hfail
    have hk3 : k < (geoLimitsResponses rid (gls.getD []) succeeded).length := by
      rw [hlen]; exact lt_min hk1 hk2
    refine ⟨hk3, ?_⟩
    rw [List.get_eq_getElem]
    rw [List.get_eq_getElem] at hfail
    simp only [geoLimitsResponses, List.getElem_zipWith]
    simp [hfail]
  have hfailiff : (0 < ((geoLimitsResponses rid (gls.getD []) succeeded).filter
        (fun o => o.error)).length)
      ↔ ∃ k, ∃ hk1 : k < (gls.getD []).length, ∃ hk2 : k < succeeded.length,
          succeeded.get ⟨k, hk2⟩ = false := by
    rw [List.length_pos]
    constructor
    · intro hne
      have hex : ∃ o ∈ geoLimitsResponses rid (gls.getD []) succeeded, o.error = true := by
        by_contra hall
        push_neg at hall
        exact hne (List.filter_eq_nil_iff.mpr (by simpa using hall))
      obtain ⟨o, ho, herr⟩ := hex
      obtain ⟨k, hk, hko⟩ := List.mem_iff_getElem.mp ho
      have hk1 : k < (gls.getD []).length := lt_of_lt_of_le (hlen ▸ hk) (min_le_left _ _)
      have hk2 : k < succeeded.length := lt_of_lt_of_le (hlen ▸ hk) (min_le_right _ _)
      refine ⟨k, hk1, hk2, ?_⟩
      rw [List.get_eq_getElem]
      by_contra htrue
      have hktrue : succeeded[k] = true := by
        cases h : succeeded[k] with
        | true => rfl
        | false => exact absurd h htrue
      rw [← hko] at herr
      simp only [geoLimitsResponses, List.getElem_zipWith] at herr
      rw [hktrue] at herr
      simp at herr
    · rintro ⟨k, hk1, hk2, hfail⟩
      obtain ⟨hk3, hmk⟩ := hmarker k hk1 hk2 hfail
      intro hnil
      have : (geoLimitsResponses rid (gls.getD []) succeeded).get ⟨k, hk3⟩
          ∈ (geoLimitsResponses rid (gls.getD []) succeeded).filter (fun o => o.error) := by
        rw [List.mem_filter]
        exact ⟨List.get_mem _ _ _, by rw [hmk]⟩
      rw [hnil] at this
      simp at this
  refine ⟨hmarker, ?_⟩
  by_cases hfail : 0 < ((geoLimitsResponses rid (gls.getD []) succeeded).filter
      (fun o => o.error)).length
  · refine ⟨ShowNotif.notif "gnviewer.warningGeoLimitsSaveTitle"
      "gnviewer.warningGeoLimitsSaveMessage", ?_, ?_, ?_⟩
    · simp only [gnSaveDirectContent]
      rw [if_pos hfail]
    · exact iff_of_true rfl (hfailiff.mp hfail)
    · intro hno
      exact absurd (hfailiff.mp hfail) hno
  · refine ⟨ShowNotif.flag true, ?_, ?_, fun _ => rfl⟩
    · simp only [gnSaveDirectContent]
      rw [if_neg hfail]
    · constructor
      · intro h
        exact absurd h (by simp)
      · intro hex
        exact absurd (hfailiff.mpr hex) hfail

/-- Witness for `gnSaveDirectContent_compensation`: one geo-limits entry
whose call is rejected yields the warning-carrying `saveContent`. -/
theorem gnSaveDirectContent_compensation_witness :
    gnSaveDirectContent (some 1) (some [{ id := 2, type := "user", features := ["f"] }])
        none none (Except.ok {}) [false] =
      [GnAction.savingResource,
       GnAction.saveContent (some 1)
         { name := none, description := none, extension := none, href := none } false
         (ShowNotif.notif "gnviewer.warningGeoLimitsSaveTitle"
           "gnviewer.warningGeoLimitsSaveMessage"),
       GnAction.resetGeoLimits] := by
  obtain ⟨h1, showNotifications, h2, h3, h4⟩ :=
    gnSaveDirectContent_compensation (some 1)
      (some [{ id := 2, type := "user", features := ["f"] }]) none none {} [false]
  have hwarn : showNotifications = ShowNotif.notif "gnviewer.warningGeoLimitsSaveTitle"
      "gnviewer.warningGeoLimitsSaveMessage" :=
    h3.mpr ⟨0, by decide, by decide, rfl⟩
  rw [hwarn] at h2
  simpa using h2

/- ### Claim C5: SaveAPI update-versus-create dispatch -/

/-- Claim C5, counterexample: for a truthy id the map branch does not call
`updateMap(id, parseMapBody(body))` as claimed — the body it sends
additionally carries the `id` key (`{...parseMapBody(body), id}`). -/
theorem saveApiMap_body_carries_id :
    saveApiMap (some 5) { title := some "t" }
      ≠ ApiCall.updateMap 5 (parseMapBody { title := some "t" }) := by
  decide

/-- Claim C5 (amended): on a map resource `SaveAPI` calls
`updateMap(id, body)` for a truthy id and `createMap(body)` otherwise,
where the body is `parseMapBody(body)` — the input body extended with the
`maplayers` computed by `toGeoNodeMapConfig` from `body.data` — and the
update body additionally carries the id; on a document it calls
`updateDocument(id, body)` for a truthy id and performs no create
otherwise. -/
theorem saveApi_dispatch (id : Option Int) (body : SaveBody) (d : MapData) :
    (∀ n, id = some n → n ≠ 0 →
      saveApiMap id body = ApiCall.updateMap n { parseMapBody body with id := some n })
    ∧ (intTruthy id = false → saveApiMap id body = ApiCall.createMap (parseMapBody body))
    ∧ (body.data = some d →
        (parseMapBody body).maplayers = some (getGeoNodeMapLayers (some d))
        ∧ (parseMapBody body).title = body.title
        ∧ (parseMapBody body).data = body.data
        ∧ (parseMapBody body).id = body.id)
    ∧ (body.data = none → parseMapBody body = body)
    ∧ (∀ n, id = some n → n ≠ 0 → saveApiDocument id body = ApiCall.updateDocument n body)
    ∧ (intTruthy id = false → saveApiDocument id body = ApiCall.noCall) := by
  refine ⟨?_, ?_, ?_, ?_, ?_, ?_⟩
  · rintro n rfl hn
    simp [saveApiMap, hn]
  · intro h
    cases id with
    | none => simp [saveApiMap]
    | some n =>
      have hn : n = 0 := by simpa [intTruthy] using h
      simp [saveApiMap, hn]
  · intro h
    simp [parseMapBody, toGeoNodeMapConfig, h]
  · intro h
    simp [parseMapBody, toGeoNodeMapConfig, h]
  · rintro n rfl hn
    simp [saveApiDocument, hn]
  · intro h
    cases id with
    | none => simp [saveApiDocument]
    | some n =>
      have hn : n = 0 := by simpa [intTruthy] using h
      simp [saveApiDocument, hn]

/-- Witness for `saveApi_dispatch` at a concrete id and body. -/
theorem saveApi_dispatch_witness :
    saveApiMap (some 5) { title := some "t" }
        = ApiCall.updateMap 5 { title := some "t", id := some 5 }
      ∧ saveApiDocument none { title := some "t" } = ApiCall.noCall := by
  obtain ⟨h1, _, _, h4, _, h6⟩ :=
    saveApi_dispatch (some 5) { title := some "t" } {}
  obtain ⟨_, _, _, _, _, h6d⟩ :=
    saveApi_dispatch none { title := some "t" } {}
  constructor
  · have := h1 5 rfl (by decide)
    rw [this, h4 rfl]
  · exact h6d (by decide)

/- ### Claim C7: searchable catalog with paging -/

/-- Claim C7: a change of the query string resets the page to 1 and (when
no request is loading) issues a page-1 request; the response to a page-1
request replaces the entries while the response to a later page appends
after the existing entries; and a request is only ever issued when no
request is currently loading. -/
theorem catalog_search_paging (s : CatalogState) (newQ : String) (pageSize : Nat)
    (response : CatalogResponse) :
    ((onQueryChange s newQ pageSize).1.page = 1)
    ∧ ((onQueryChange s newQ pageSize).1.q = newQ)
    ∧ (s.loading = false →
        (onQueryChange s newQ pageSize).2 = some { q := newQ, page := 1, pageSize := pageSize }
        ∧ (onQueryChange s newQ pageSize).1.pendingPage = some 1
        ∧ (onQueryChange s newQ pageSize).1.loading = true)
    ∧ (s.loading = true → (onQueryChange s newQ pageSize).2 = none)
    ∧ (s.pendingPage = some 1 → (onResponse s response).entries = response.resources)
    ∧ (∀ p, s.pendingPage = some p → p ≠ 1 →
        (onResponse s response).entries = s.entries ++ response.resources)
    ∧ (∀ r, (onQueryChange s newQ pageSize).2 = some r → s.loading = false)
    ∧ (∀ r, (onScrollLoad s pageSize).2 = some r →
        s.loading = false ∧ r.page = s.page + 1) := by
  refine ⟨?_, ?_, ?_, ?_, ?_, ?_, ?_, ?_⟩
  · by_cases h : s.loading <;> simp [onQueryChange, updateRequest, h]
  · by_cases h : s.loading <;> simp [onQueryChange, updateRequest, h]
  · intro h
    simp [onQueryChange, updateRequest, h]
  · intro h
    simp [onQueryChange, updateRequest, h]
  · intro h
    simp [onResponse, h]
  · intro p hp hne
    simp [onResponse, hp, hne]
  · intro r hr
    cases hb : s.loading with
    | false => rfl
    | true => simp [onQueryChange, updateRequest, hb] at hr
  · intro r hr
    cases hb : s.loading with
    | true => simp [onScrollLoad, hb] at hr
    | false =>
      cases hb2 : s.isNextPageAvailable with
      | false => simp [onScrollLoad, hb, hb2] at hr
      | true =>
        refine ⟨rfl, ?_⟩
        by_cases hp : 0 < s.page
        · simp [onScrollLoad, updateRequest, hb, hb2, hp] at hr
          subst hr
          rfl
        · simp [onScrollLoad, updateRequest, hb, hb2, hp] at hr

/-- Witness for `catalog_search_paging` at a concrete widget state. -/
theorem catalog_search_paging_witness :
    (onQueryChange { entries := [{ pk := 1 }], loading := false, page := 3 } "road" 10).2
        = some { q := "road", page := 1, pageSize := 10 }
      ∧ (onResponse { entries := [{ pk := 1 }], loading := true, pendingPage := some 2 }
          { resources := [{ pk := 2 }], isNextPageAvailable := false }).entries
        = [{ pk := 1 }, { pk := 2 }] := by
  obtain ⟨_, _, h3, _, _, h6, _, _⟩ :=
    catalog_search_paging { entries := [{ pk := 1 }], loading := false, page := 3 } "road" 10
      { resources := [{ pk := 2 }], isNextPageAvailable := false }
  obtain ⟨_, _, _, _, _, h6b, _, _⟩ :=
    catalog_search_paging { entries := [{ pk := 1 }], loading := true, pendingPage := some 2 }
      "road" 10 { resources := [{ pk := 2 }], isNextPageAvailable := false }
  exact ⟨(h3 rfl).1, h6b 2 rfl (by decide)⟩

/- ### Claim C8: DownloadButton never renders for unauthorized or
excluded resources -/

/-- Claim C8: `DownloadButton` returns `null` whenever the resolved
resource's perms do not include `download_resourcebase`, or its ptype is
`REST_MAP`/`REST_IMG`, or its sourcetype is not among the allowed
sources; rendered as a menu item it also returns `null` whenever the
resolved download info is not ajax-safe. -/
theorem downloadButton_null_conditions (args : DownloadButtonArgs) :
    (((((match args.resource with
          | some r => some r
          | none => args.resourceData).bind Resource.perms).getD []).contains
        "download_resourcebase") = false → DownloadButton args = none)
    ∧ (∀ p, ((match args.resource with
          | some r => some r
          | none => args.resourceData).bind Resource.ptype) = some p →
        (p = GXP_PTYPES_REST_MAP ∨ p = GXP_PTYPES_REST_IMG) → DownloadButton args = none)
    ∧ ((match ((match args.resource with
          | some r => some r
          | none => args.resourceData).bind Resource.sourcetype) with
        | some st => args.allowedSources.contains st
        | none => false) = false → DownloadButton args = none)
    ∧ (args.renderType = "menuItem" →
        boolTruthy (getDownloadUrlInfo (match args.resource with
          | some r => some r
          | none => args.resourceData)).ajaxSafe = false →
        DownloadButton args = none) := by
  refine ⟨?_, ?_, ?_, ?_⟩
  · intro h
    simp at h
    simp [DownloadButton, h]
  · intro p hp hrest
    rcases hrest with h | h <;>
      simp [DownloadButton, hp, h, GXP_PTYPES_REST_MAP, GXP_PTYPES_REST_IMG]
  · intro h
    rcases hX : (match args.resource with
        | some r => some r
        | none => args.resourceData).bind Resource.sourcetype with _ | st
    · simp [DownloadButton, hX]
    · rw [hX] at h
      simp at h
      simp [DownloadButton, hX, h]
  · intro hmenu hajax
    simp [DownloadButton, hmenu, hajax]

/-- Witness for `downloadButton_null_conditions`: a resource without the
download permission yields no button. -/
theorem downloadButton_null_conditions_witness :
    DownloadButton { resource := some { perms := some ["view_resourcebase"] } } = none := by
  obtain ⟨h1, _, _, _⟩ :=
    downloadButton_null_conditions { resource := some { perms := some ["view_resourcebase"] } }
  exact h1 (by decide)

/- ### Claim C9: getDownloadUrlInfo precedence -/

/-- Claim C9, counterexample: a one-element `download_urls` whose entry is
the empty object does not yield that entry's `url`/`ajax_safe` — lodash
`isEmpty(downloadData)` makes the function fall back to
`{ url: resource.href, ajaxSafe: false }`. -/
theorem getDownloadUrlInfo_empty_entry :
    ({ href := some "h", download_urls := [{ url := none, ajax_safe := none, default := none }] }
        : Resource).download_urls = [{ url := none, ajax_safe := none, default := none }]
    ∧ getDownloadUrlInfo
        (some { href := some "h",
                download_urls := [{ url := none, ajax_safe := none, default := none }] })
      ≠ { url := ({ url := none, ajax_safe := none, default := none } : DownloadUrlEntry).url,
          ajaxSafe := ({ url := none, ajax_safe := none, default := none }
            : DownloadUrlEntry).ajax_safe } := by
  constructor
  · rfl
  · decide

/-- Claim C9 (amended): `getDownloadUrlInfo` returns
`{ url: resource.href, ajaxSafe: false }` for every external-source
document regardless of `download_urls`; for a one-element list it returns
the entry's `url`/`ajax_safe` provided the entry is non-empty (falling
back to the href object for an empty entry); for a list of length at
least two it returns the entry found with a truthy `default` flag, and
falls back to the href object when no entry is marked default. -/
theorem getDownloadUrlInfo_precedence (r : Resource) :
    (isDocumentExternalSource (some r) = true →
      getDownloadUrlInfo (some r) = { url := r.href, ajaxSafe := some false })
    ∧ (∀ d, r.download_urls = [d] → downloadEntryIsEmpty d = false →
        isDocumentExternalSource (some r) = false →
        getDownloadUrlInfo (some r) = { url := d.url, ajaxSafe := d.ajax_safe })
    ∧ (2 ≤ r.download_urls.length → isDocumentExternalSource (some r) = false →
        (∀ d, r.download_urls.find? (fun e => boolTruthy e.default) = some d →
          getDownloadUrlInfo (some r) = { url := d.url, ajaxSafe := d.ajax_safe })
        ∧ (r.download_urls.find? (fun e => boolTruthy e.default) = none →
          getDownloadUrlInfo (some r) = { url := r.href, ajaxSafe := some false })) := by
  refine ⟨?_, ?_, ?_⟩
  · intro h
    simp [getDownloadUrlInfo, h]
  · intro d hd hne hext
    simp [getDownloadUrlInfo, hext, hd, hne]
  · intro hlen hext
    have hne : r.download_urls.isEmpty = false := by
      cases hurls : r.download_urls with
      | nil => rw [hurls] at hlen; simp at hlen
      | cons a as => simp
    have hlen1 : (r.download_urls.length == 1) = false := by
      simp only [beq_eq_false_iff_ne, ne_eq]
      omega
    constructor
    · intro d hfind
      have hdef : boolTruthy d.default = true := by
        have h0 := (List.find?_eq_some.mp hfind).1
        simpa using h0
      have hdne : downloadEntryIsEmpty d = false := by
        cases hdd : d.default with
        | none => rw [hdd] at hdef; simp [boolTruthy] at hdef
        | some b => simp [downloadEntryIsEmpty, hdd]
      simp [getDownloadUrlInfo, hext, hne, hlen1, hfind, hdne]
    · intro hfind
      simp [getDownloadUrlInfo, hext, hne, hlen1, hfind]

/-- Witness for `getDownloadUrlInfo_precedence` at a concrete resource
with two download urls, the second marked default. -/
theorem getDownloadUrlInfo_precedence_witness :
    getDownloadUrlInfo
        (some { href := some "h",
                download_urls := [{ url := some "u1" },
                  { url := some "u2", ajax_safe := some true, default := some true }] })
      = { url := some "u2", ajaxSafe := some true } := by
  obtain ⟨_, _, h3⟩ :=
    getDownloadUrlInfo_precedence
      { href := some "h",
        download_urls := [{ url := some "u1" },
          { url := some "u2", ajax_safe := some true, default := some true }] }
  obtain ⟨h3a, _⟩ := h3 (by decide) (by decide)
  exact h3a { url := some "u2", ajax_safe := some true, default := some true } (by decide)

/- ### Claim C1: purity of resourceToLayerConfig -/

/-- Claim C1, counterexample: two successive applications of
`resourceToLayerConfig` to the same resource do not produce identical
outputs — the `id` field comes from a fresh `uuid()` each call. -/
theorem resourceToLayerConfig_fresh_id :
    ((resourceToLayerConfig {} {} 0).1).id
      ≠ ((resourceToLayerConfig {} {} ((resourceToLayerConfig {} {} 0).2)).1).id := by
  decide

/-- Claim C1 (amended): `resourceToLayerConfig` is deterministic in
everything but the generated `id`: two applications to the same resource
(under the same configuration) agree on every field except possibly
`id`; each application's only effect is consuming one uuid from the
supply; the `id` is the fresh uuid (and so differs between successive
calls) whenever the stored layer settings carry no `id` of their own,
while in the wms branch a stored `id` overrides the fresh uuid with the
same value on every call. -/
theorem resourceToLayerConfig_deterministic (cfg : GeoNodeSettingsCfg) (resource : Resource)
    (s t : Nat) :
    Layer.eraseId (resourceToLayerConfig cfg resource s).1
      = Layer.eraseId (resourceToLayerConfig cfg resource t).1
    ∧ (resourceToLayerConfig cfg resource s).2 = s + 1
    ∧ ((∀ settings, resource.data = some settings → settings.id = none) →
        (resourceToLayerConfig cfg resource s).1.id = some (uuidGen s))
    ∧ (∀ settings sid, (resource.subtype == some "3dtiles") = false →
        (resource.ptype == some GXP_PTYPES_REST_MAP
          || resource.ptype == some GXP_PTYPES_REST_IMG) = false →
        resource.data = some settings → settings.id = some sid →
        (resourceToLayerConfig cfg resource s).1.id = some sid) := by
  by_cases h1 : (resource.subtype == some "3dtiles") = true
  · refine ⟨?_, ?_, ?_, ?_⟩
    · simp [resourceToLayerConfig, Layer.eraseId, h1]
    · simp [resourceToLayerConfig, h1]
    · intro hset
      simp [resourceToLayerConfig, h1]
    · intro settings sid hsub hpt hd hsid
      rw [hsub] at h1
      exact absurd h1 (by simp)
  · by_cases h2 : (resource.ptype == some GXP_PTYPES_REST_MAP
        || resource.ptype == some GXP_PTYPES_REST_IMG) = true
    · refine ⟨?_, ?_, ?_, ?_⟩
      · simp [resourceToLayerConfig, Layer.eraseId, h1, h2]
      · simp [resourceToLayerConfig, h1, h2]
      · intro hset
        simp [resourceToLayerConfig, h1, h2]
      · intro settings sid hsub hpt hd hsid
        rw [hpt] at h2
        exact absurd h2 (by simp)
    · cases hd : resource.data with
      | none =>
        refine ⟨?_, ?_, ?_, ?_⟩
        · simp [resourceToLayerConfig, Layer.eraseId, h1, h2, hd]
        · simp [resourceToLayerConfig, h1, h2, hd]
        · intro hset
          simp [resourceToLayerConfig, h1, h2, hd]
        · intro settings sid hsub hpt hd2 hsid
          exact absurd hd2 (by simp)
      | some settings =>
        refine ⟨?_, ?_, ?_, ?_⟩
        · simp [resourceToLayerConfig, Layer.eraseId, applyStoredSettings, h1, h2, hd]
        · simp [resourceToLayerConfig, h1, h2, hd]
        · intro hset
          have hidn : settings.id = none := hset settings rfl
          simp [resourceToLayerConfig, applyStoredSettings, h1, h2, hd, hidn]
        · intro settings2 sid hsub hpt hd2 hsid
          injection hd2 with hd3
          subst hd3
          simp [resourceToLayerConfig, applyStoredSettings, h1, h2, hd, hsid]

/-- Witness for `resourceToLayerConfig_deterministic`: a resource without
stored settings gets the fresh uuid as id, while a resource whose stored
settings carry an id keeps that stored id. -/
theorem resourceToLayerConfig_deterministic_witness :
    (resourceToLayerConfig {} {} 0).1.id = some (uuidGen 0)
    ∧ (resourceToLayerConfig {} { data := some { id := some "stored" } } 0).1.id
      = some "stored" := by
  obtain ⟨_, _, h3, _⟩ := resourceToLayerConfig_deterministic {} {} 0 0
  obtain ⟨_, _, _, h4⟩ :=
    resourceToLayerConfig_deterministic {} { data := some { id := some "stored" } } 0 0
  refine ⟨h3 ?_, h4 { id := some "stored" } "stored" (by decide) (by decide) rfl rfl⟩
  intro settings h
  cases h

/- ### Claim C6: WGS84-bounded extent translation -/

/-- Claim C6, counterexample: stored layer settings (`resource.data`,
spread last in the wms branch) can carry a `bbox` of their own, so a
resource with an invalid extent can still produce a layer carrying a
bbox (next to `bboxError: true`). -/
theorem resourceToLayerConfig_bbox_from_settings :
    getExtentFromResource
        { extent := some { coords := [-200, 0, 0, 0] },
          data := some { bbox := some { crs := "EPSG:3857" } } } = none
    ∧ (resourceToLayerConfig {}
        { extent := some { coords := [-200, 0, 0, 0] },
          data := some { bbox := some { crs := "EPSG:3857" } } } 0).1.bbox ≠ none := by
  constructor
  · decide
  · decide

/-- Claim C6 (amended): `getExtentFromResource` yields `null` for a
missing/empty extent and for coordinates outside the WGS84 maximum
extent, and otherwise an `EPSG:4326` bbox with exactly the four
coordinates; consequently, in the wms branch of `resourceToLayerConfig`,
the layer's computed bbox is the extent's bbox and `bboxError: true`
appears exactly when the extent was invalid — provided the resource's
stored layer settings do not themselves override `bbox`/`bboxError`. -/
theorem getExtentFromResource_bounds (r : Resource) (e : ResExtent) (a b c d : ℚ)
    (cfg : GeoNodeSettingsCfg) (seed : Nat) :
    (r.extent = none → getExtentFromResource r = none)
    ∧ (r.extent = some e → e.coords = [] → getExtentFromResource r = none)
    ∧ (r.extent = some e → e.coords = [a, b, c, d] →
        ((a < -180 ∨ b < -90 ∨ 180 < c ∨ 90 < d) → getExtentFromResource r = none)
        ∧ (¬(a < -180 ∨ b < -90 ∨ 180 < c ∨ 90 < d) →
            getExtentFromResource r = some { crs := "EPSG:4326", bounds := { minx := some a, miny := some b, maxx := some c, maxy := some d } }))
    ∧ ((r.subtype == some "3dtiles") = false →
        (r.ptype == some GXP_PTYPES_REST_MAP || r.ptype == some GXP_PTYPES_REST_IMG) = false →
        (∀ settings, r.data = some settings →
          settings.bbox = none ∧ settings.bboxError = none) →
        (resourceToLayerConfig cfg r seed).1.bbox = getExtentFromResource r
        ∧ (resourceToLayerConfig cfg r seed).1.bboxError
            = (if (getExtentFromResource r).isNone then some true else none)) := by
  refine ⟨?_, ?_, ?_, ?_⟩
  · intro h
    simp [getExtentFromResource, h]
  · intro h he
    simp [getExtentFromResource, h, he]
  · intro h he
    constructor
    · intro hout
      rcases hout with h4 | h4 | h4 | h4 <;>
        simp [getExtentFromResource, h, he, jsLtOpt, jsGtOpt, h4]
    · intro hin
      push_neg at hin
      obtain ⟨n1, n2, n3, n4⟩ := hin
      simp [getExtentFromResource, h, he, jsLtOpt, jsGtOpt, not_lt.mpr n1, not_lt.mpr n2,
        not_lt.mpr n3, not_lt.mpr n4]
  · intro h1 h2 hset
    cases hd : r.data with
    | none =>
      constructor <;> simp [resourceToLayerConfig, h1, h2, hd]
    | some settings =>
      obtain ⟨hb, he2⟩ := hset settings hd
      constructor <;> simp [resourceToLayerConfig, applyStoredSettings, h1, h2, hd, hb, he2]

/-- Witness for `getExtentFromResource_bounds` at a concrete in-bounds
resource. -/
theorem getExtentFromResource_bounds_witness :
    getExtentFromResource { extent := some { coords := [-10, -20, 30, 40] } }
        = some { crs := "EPSG:4326", bounds := { minx := some (-10), miny := some (-20), maxx := some 30, maxy := some 40 } }
      ∧ (resourceToLayerConfig {} { extent := some { coords := [-10, -20, 30, 40] } } 0).1.bbox
        = getExtentFromResource { extent := some { coords := [-10, -20, 30, 40] } } := by
  obtain ⟨_, _, h3, h4⟩ :=
    getExtentFromResource_bounds { extent := some { coords := [-10, -20, 30, 40] } }
      { coords := [-10, -20, 30, 40] } (-10) (-20) 30 40 {} 0
  constructor
  · exact (h3 rfl rfl).2 (by norm_num)
  · exact (h4 (by decide) (by decide) (by intro settings hs; cases hs)).1

/- ### Claim C10: processUploadResponse normalization -/

theorem uploadStep_filter (acc : List Upload) (currentResponse : Upload) :
    uploadStep acc currentResponse =
      normalizeUpload currentResponse
        :: acc.filter (fun upload => !(uploadMatches upload currentResponse)) := by
  cases h : acc.find? (fun upload => uploadMatches upload currentResponse) with
  | some u => simp only [uploadStep, h]
  | none =>
    simp only [uploadStep, h]
    congr 1
    symm
    apply List.filter_eq_self.mpr
    intro a ha
    rw [List.find?_eq_none] at h
    simp [h a ha]

theorem foldl_uploadStep_mem (response : List Upload) (acc : List Upload) (u : Upload)
    (hu : u ∈ List.foldl uploadStep acc response) :
    u ∈ acc ∨ ∃ e ∈ response, u = normalizeUpload e := by
  induction response generalizing acc with
  | nil => exact Or.inl hu
  | cons x xs ih =>
    rcases ih (uploadStep acc x) (by simpa using hu) with h | ⟨e, he, hue⟩
    · rw [uploadStep_filter] at h
      rcases List.mem_cons.mp h with h1 | h1
      · exact Or.inr ⟨x, List.mem_cons_self x xs, h1⟩
      · exact Or.inl (List.mem_filter.mp h1).1
    · exact Or.inr ⟨e, List.mem_cons_of_mem x he, hue⟩

theorem uniqByIdAux_subset (l : List Upload) (seen : List (Option String)) (u : Upload)
    (hu : u ∈ uniqByIdAux seen l) : u ∈ l := by
  induction l generalizing seen with
  | nil => simpa [uniqByIdAux] using hu
  | cons x xs ih =>
    by_cases h : seen.contains x.id
    · simp only [uniqByIdAux, if_pos h] at hu
      exact List.mem_cons_of_mem x (ih _ hu)
    · simp only [uniqByIdAux, if_neg h] at hu
      rcases List.mem_cons.mp hu with h1 | h1
      · exact h1 ▸ List.mem_cons_self x xs
      · exact List.mem_cons_of_mem x (ih _ h1)

theorem uniqByIdAux_not_seen (l : List Upload) (seen : List (Option String)) (u : Upload)
    (hu : u ∈ uniqByIdAux seen l) : ¬ u.id ∈ seen := by
  induction l generalizing seen with
  | nil => simp [uniqByIdAux] at hu
  | cons x xs ih =>
    by_cases h : seen.contains x.id
    · simp only [uniqByIdAux, if_pos h] at hu
      exact ih _ hu
    · simp only [uniqByIdAux, if_neg h] at hu
      rcases List.mem_cons.mp hu with h1 | h1
      · subst h1
        simpa using h
      · intro hmem
        exact ih _ h1 (List.mem_cons_of_mem _ hmem)

theorem uniqByIdAux_pairwise (l : List Upload) (seen : List (Option String)) :
    List.Pairwise (fun a b => a.id ≠ b.id) (uniqByIdAux seen l) := by
  induction l generalizing seen with
  | nil => simp [uniqByIdAux]
  | cons x xs ih =>
    by_cases h : seen.contains x.id
    · simpa only [uniqByIdAux, if_pos h] using ih seen
    · simp only [uniqByIdAux, if_neg h]
      refine List.pairwise_cons.mpr ⟨?_, ih (x.id :: seen)⟩
      intro v hv
      have := uniqByIdAux_not_seen xs (x.id :: seen) v hv
      intro hxv
      exact this (hxv ▸ List.mem_cons_self x.id seen)

theorem createDateDescLe_trans (a b c : Upload)
    (hab : createDateDescLe a b = true) (hbc : createDateDescLe b c = true) :
    createDateDescLe a c = true := by
  cases ha : a.create_date with
  | none => simp [createDateDescLe, ha]
  | some x =>
    cases hb : b.create_date with
    | none => simp [createDateDescLe, ha, hb] at hab
    | some y =>
      cases hc : c.create_date with
      | none => simp [createDateDescLe, hb, hc] at hbc
      | some z =>
        simp only [createDateDescLe, ha, hb] at hab
        simp only [createDateDescLe, hb, hc] at hbc
        simp only [createDateDescLe, ha, hc]
        simp only [decide_eq_true_eq] at hab hbc ⊢
        exact le_trans hbc hab

theorem createDateDescLe_total (a b : Upload) :
    (createDateDescLe a b || createDateDescLe b a) = true := by
  cases ha : a.create_date with
  | none => simp [createDateDescLe, ha]
  | some x =>
    cases hb : b.create_date with
    | none => simp [createDateDescLe, ha, hb]
    | some y =>
      simp only [createDateDescLe, ha, hb]
      simp only [Bool.or_eq_true, decide_eq_true_eq]
      exact le_total y x

/-- Claim C10: the output of `processUploadResponse` has pairwise distinct
ids; every output entry is an input entry, normalized so that an entry
lacking an id receives `id = exec_id` and `create_date = created`; each
reduce step replaces the accumulated entries matching the current one by
the (normalized) current entry; and the output is ordered by
`create_date` descending. -/
theorem processUploadResponse_normalizes (response : List Upload) :
    List.Pairwise (fun a b => a.id ≠ b.id) (processUploadResponse response)
    ∧ (∀ u ∈ processUploadResponse response, ∃ e ∈ response,
        u = (if strTruthy e.id then e
             else { e with create_date := e.created, id := e.exec_id }))
    ∧ (∀ acc currentResponse, uploadStep acc currentResponse =
        normalizeUpload currentResponse
          :: acc.filter (fun upload => !(uploadMatches upload currentResponse)))
    ∧ List.Pairwise (fun a b => createDateDescLe a b = true)
        (processUploadResponse response) := by
  have hperm : (processUploadResponse response).Perm
      (uniqByIdAux [] (processUploadList response)) := by
    simpa [processUploadResponse, parseUploadResponse] using
      List.mergeSort_perm (uniqByIdAux [] (processUploadList response)) createDateDescLe
  refine ⟨?_, ?_, uploadStep_filter, ?_⟩
  · have hpw := uniqByIdAux_pairwise (processUploadList response) []
    exact (List.Perm.pairwise_iff (fun h => h.symm) hperm).mpr hpw
  · intro u hu
    have hu2 : u ∈ uniqByIdAux [] (processUploadList response) := hperm.mem_iff.mp hu
    have hu3 : u ∈ processUploadList response :=
      uniqByIdAux_subset _ _ _ hu2
    rcases foldl_uploadStep_mem response [] u hu3 with h | ⟨e, he, hue⟩
    · simp at h
    · exact ⟨e, he, by rw [hue]; rfl⟩
  · simpa [processUploadResponse, parseUploadResponse] using
      List.sorted_mergeSort createDateDescLe_trans
        (fun a b => createDateDescLe_total a b)
        (uniqByIdAux [] (processUploadList response))

unseal List.merge List.mergeSort in
/-- Witness for `processUploadResponse_normalizes`: a response whose second
entry matches the first by `exec_id` and lacks an id. -/
theorem processUploadResponse_normalizes_witness :
    (∃ e ∈ [({ id := some "a", create_date := some "2021" } : Upload),
            { exec_id := some "a", created := some "2022" }],
        ({ id := some "a", exec_id := some "a", created := some "2022", create_date := some "2022" } : Upload)
          = (if strTruthy e.id then e
             else { e with create_date := e.created, id := e.exec_id }))
    ∧ List.Pairwise (fun a b => createDateDescLe a b = true)
        (processUploadResponse [{ id := some "a", create_date := some "2021" },
          { exec_id := some "a", created := some "2022" }]) := by
  obtain ⟨_, h2, _, h4⟩ :=
    processUploadResponse_normalizes [{ id := some "a", create_date := some "2021" },
      { exec_id := some "a", created := some "2022" }]
  refine ⟨?_, h4⟩
  exact h2 { id := some "a", exec_id := some "a", created := some "2022", create_date := some "2022" } (by decide)

/- ### Claim C2: resource <-> map-layer config reconciliation -/

/-- Claim C2: for the layer at position `k` of the mapLayer-carrying
layers of a map blob, `getGeoNodeMapLayers` produces at position `k` an
entry with `pk` equal to the layer's `extendedParams.mapLayer.pk`,
`extra_params.msId` equal to the layer's id, and `order` equal to its
index `k`; and `toMapStoreMapConfig` applied to a resource carrying
those maplayers re-attaches that entry to the non-background layer with
the matching id, overriding a wms layer's style with the entry's
`current_style` when it is non-empty. -/
theorem mapConfig_reconciliation (cfg : GeoNodeSettingsCfg) (data baseConfig : Option MapData)
    (seed : Nat) (l : Layer) (m : MapLayerEntry) (i : String) (k : Nat)
    (hk : k < (mapLayerCarrying data).length)
    (hl : (mapLayerCarrying data).get ⟨k, hk⟩ = l)
    (hm : l.extendedParams.bind ExtendedParams.mapLayer = some m)
    (hid : l.id = some i) :
    ∃ hk2 : k < (getGeoNodeMapLayers data).length,
      ((getGeoNodeMapLayers data).get ⟨k, hk2⟩).pk = m.pk
      ∧ ((getGeoNodeMapLayers data).get ⟨k, hk2⟩).extra_params = some { msId := some i }
      ∧ ((getGeoNodeMapLayers data).get ⟨k, hk2⟩).order = some k
      ∧ (l.group ≠ some "background" →
         (∀ j (hj : j < (mapLayerCarrying data).length), j ≠ k →
            ((mapLayerCarrying data).get ⟨j, hj⟩).id ≠ some i) →
         ∃ attached : Layer,
           attached ∈ jsLayers (some (toMapStoreMapConfig cfg
              (some { maplayers := getGeoNodeMapLayers data, data := data }) baseConfig seed).1)
           ∧ attached = { l with
               style :=
                 if l.type == some "wms"
                 then some (jsOrStr ((getGeoNodeMapLayers data).get ⟨k, hk2⟩).current_style l.style)
                 else l.style,
               extendedParams :=
                 some { (l.extendedParams.getD {}) with
                        mapLayer := some ((getGeoNodeMapLayers data).get ⟨k, hk2⟩) } }
           ∧ (l.type = some "wms" →
              ∀ st, ((getGeoNodeMapLayers data).get ⟨k, hk2⟩).current_style = some st →
                st ≠ "" → attached.style = some st)) := by
  have hk2 : k < (getGeoNodeMapLayers data).length := by
    rw [getGeoNodeMapLayers, mapIdxFrom_length]
    exact hk
  have hentry : (getGeoNodeMapLayers data).get ⟨k, hk2⟩ = geoNodeMapLayerEntry k l := by
    have h0 := mapIdxFrom_get geoNodeMapLayerEntry 0 (mapLayerCarrying data) k hk
    rw [hl] at h0
    simpa [getGeoNodeMapLayers] using h0
  refine ⟨hk2, ?_, ?_, ?_, ?_⟩
  · rw [hentry]
    simp [geoNodeMapLayerEntry, hm]
  · rw [hentry]
    simp [geoNodeMapLayerEntry, hid]
  · rw [hentry]
    simp [geoNodeMapLayerEntry]
  · intro hbg hdist
    have hfind : (getGeoNodeMapLayers data).find? (fun mL => mapLayerMatchesId l mL)
        = some ((getGeoNodeMapLayers data).get ⟨k, hk2⟩) := by
      apply find?_eq_get
      · rw [hentry]
        simp [mapLayerMatchesId, geoNodeMapLayerEntry, hid]
      · intro j hj
        have hjF : j < (mapLayerCarrying data).length := by
          have := Nat.lt_trans hj hk2
          rw [getGeoNodeMapLayers, mapIdxFrom_length] at this
          exact this
        have hj0 := mapIdxFrom_get geoNodeMapLayerEntry 0 (mapLayerCarrying data) j hjF
        have hje : (getGeoNodeMapLayers data).get ⟨j, Nat.lt_trans hj hk2⟩
            = geoNodeMapLayerEntry j ((mapLayerCarrying data).get ⟨j, hjF⟩) := by
          simpa [getGeoNodeMapLayers] using hj0
        rw [hje]
        have hne := hdist j hjF (Nat.ne_of_lt hj)
        simp [mapLayerMatchesId, geoNodeMapLayerEntry, hid, hne]
        simpa [List.get_eq_getElem] using hne
    have hmemF : l ∈ mapLayerCarrying data := by
      rw [← hl]
      exact List.get_mem _ _ _
    have hmemJs : l ∈ jsLayers data := by
      rw [mapLayerCarrying] at hmemF
      exact (List.mem_filter.mp hmemF).1
    have hmemNB : l ∈ (jsLayers data).filter (fun layer => !(layer.group == some "background")) := by
      refine List.mem_filter.mpr ⟨hmemJs, ?_⟩
      simp [hbg]
    have hattach : attachMapLayer (getGeoNodeMapLayers data) l
        = some { l with
            style :=
              if l.type == some "wms"
              then some (jsOrStr ((getGeoNodeMapLayers data).get ⟨k, hk2⟩).current_style l.style)
              else l.style,
            extendedParams :=
              some { (l.extendedParams.getD {}) with
                     mapLayer := some ((getGeoNodeMapLayers data).get ⟨k, hk2⟩) } } := by
      simp only [attachMapLayer, hfind]
    have hmemRec : { l with
        style :=
          if l.type == some "wms"
          then some (jsOrStr ((getGeoNodeMapLayers data).get ⟨k, hk2⟩).current_style l.style)
          else l.style,
        extendedParams :=
          some { (l.extendedParams.getD {}) with
                 mapLayer := some ((getGeoNodeMapLayers data).get ⟨k, hk2⟩) } }
        ∈ msReconciledLayers (getGeoNodeMapLayers data) data := by
      rw [msReconciledLayers]
      exact List.mem_filterMap.mpr ⟨l, hmemNB, hattach⟩
    have hout : jsLayers (some (toMapStoreMapConfig cfg
        (some { maplayers := getGeoNodeMapLayers data, data := data }) baseConfig seed).1)
        = msBackgroundLayers data baseConfig
          ++ msReconciledLayers (getGeoNodeMapLayers data) data
          ++ (msAddMapLayers cfg (getGeoNodeMapLayers data)
                (msReconciledLayers (getGeoNodeMapLayers data) data) seed).1 := by
      simp [toMapStoreMapConfig, jsLayers]
    refine ⟨_, ?_, rfl, ?_⟩
    · rw [hout]
      exact List.mem_append.mpr (Or.inl (List.mem_append.mpr (Or.inr hmemRec)))
    · intro hwms st hst hne
      rw [List.get_eq_getElem] at hst
      simp [hwms, hst, jsOrStr, hne]

/-- Witness for `mapConfig_reconciliation` at a concrete one-layer map
blob. -/
theorem mapConfig_reconciliation_witness :
    ∃ attached : Layer,
      attached ∈ jsLayers (some (toMapStoreMapConfig {}
          (some { maplayers := getGeoNodeMapLayers (some { map := some { layers := [{ id := some "a", type := some "wms", name := some "n", style := some "s0", extendedParams := some { mapLayer := some { pk := some 7 } } }] } }),
                  data := some { map := some { layers := [{ id := some "a", type := some "wms", name := some "n", style := some "s0", extendedParams := some { mapLayer := some { pk := some 7 } } }] } } })
          none 0).1)
      ∧ attached.style = some "s0" := by
  obtain ⟨hk2, hpk, hxp, hord, hatt⟩ :=
    mapConfig_reconciliation {} (some { map := some { layers := [{ id := some "a", type := some "wms", name := some "n", style := some "s0", extendedParams := some { mapLayer := some { pk := some 7 } } }] } })
      none 0
      { id := some "a", type := some "wms", name := some "n", style := some "s0", extendedParams := some { mapLayer := some { pk := some 7 } } }
      { pk := some 7 } "a" 0 (by decide) (by decide) (by decide) (by decide)
  obtain ⟨attached, hmem, heq, hsty⟩ := hatt (by decide) (by
    intro j hj hne
    refine absurd ?_ hne
    have h1 : (mapLayerCarrying (some { map := some { layers := [{ id := some "a", type := some "wms", name := some "n", style := some "s0", extendedParams := some { mapLayer := some { pk := some 7 } } }] } })).length = 1 := by decide
    omega)
  refine ⟨attached, hmem, ?_⟩
  have hval : (getGeoNodeMapLayers (some { map := some { layers := [{ id := some "a", type := some "wms", name := some "n", style := some "s0", extendedParams := some { mapLayer := some { pk := some 7 } } }] } })).get ⟨0, hk2⟩
      = { pk := some 7, current_style := some "s0", extra_params := some { msId := some "a" }, name := some "n", order := some 0, opacity := some 1, visibility := none } := by
    rw [List.get_eq_getElem]
    rfl
  exact hsty rfl "s0" (by rw [hval]) (by decide)
